import Mathlib

/-!
Verification of the civic-issue tracker backend (`citizen_app.py`).

The backend stores `Issue` rows in a single SQLite table keyed by `id`
(a TEXT primary key).  We embed the table as a `List Issue` kept in
insertion (rowid) order, and each backend method as a pure function on
that list.  Time-dependent values (the wall-clock timestamp used to
derive the new id, and the ISO creation timestamp) are passed in as
explicit arguments.  SQLite raises an integrity error when an INSERT
would duplicate the primary key; we surface both that and the
category `ValueError` through an `Except`-style result paired with the
(possibly unchanged) store.
-/

/-- One row of the `issues` table, mirroring the Python `Issue` dataclass:
id, title, category, location, status (default "open"), votes
(default 0) and created_at (ISO-8601 text).  `votes` is an `Int` so that
non-negativity is a provable invariant rather than a typing artifact. -/
structure Issue where
  id : String
  title : String
  category : String
  location : String
  status : String
  votes : Int
  created_at : String
deriving DecidableEq, Repr

/-- The fixed category set `CitizenAppBackend.CATEGORIES`.  The Python
source keeps it as a `set`; we fix one enumeration order, and state all
properties via membership so the order is irrelevant. -/
def CATEGORIES : List String :=
  ["infrastructure", "safety", "environment", "community", "transit"]

/-- The issues table, in insertion (rowid) order. -/
abbrev Store := List Issue

/-- Errors the backend can raise: the category `ValueError` from
`report_issue`, and the SQLite integrity error raised when an INSERT
collides with an existing primary key. -/
inductive AppError where
  | valueError (msg : String)
  | integrityError
deriving DecidableEq, Repr

/-- The text of the category validation error.  The Python source
formats the message as an f-string interpolating the category set
(whose rendering order Python does not fix); the model keeps the fixed
part and the five category names, which is what every claim about the
message uses. -/
def invalidCategoryMsg : String :=
  "Invalid category. Must be one of: " ++ String.intercalate ", " CATEGORIES

/-- Character-level test that `l` begins with `p`. -/
def startsWithSeg : List Char → List Char → Bool
  | [], _ => true
  | _ :: _, [] => false
  | a :: p, b :: l => a == b && startsWithSeg p l

/-- Character-level test that `needle` occurs contiguously inside the
second list; used to state that an error message names a category. -/
def hasSeg (needle : List Char) : List Char → Bool
  | [] => startsWithSeg needle []
  | b :: l => startsWithSeg needle (b :: l) || hasSeg needle l

/-- Model of `CitizenAppBackend.report_issue`: validates the category, derives the
new id from the current timestamp (`ts`), and inserts a fresh row with
status "open", votes 0 and `created_at = iso`.  On a validation error or
a primary-key collision the store is returned unchanged. -/
def report_issue (s : Store) (title category location : String)
    (ts iso : String) : Except AppError String × Store :=
  if category ∈ CATEGORIES then
    let issue_id := "issue_" ++ ts
    if s.any (fun i => i.id == issue_id) then
      (.error .integrityError, s)
    else
      (.ok issue_id,
       s ++ [{ id := issue_id, title := title, category := category,
               location := location, status := "open", votes := 0,
               created_at := iso }])
  else
    (.error (.valueError invalidCategoryMsg), s)

/-- Model of `CitizenAppBackend.vote_issue`: runs
`UPDATE issues SET votes = votes + 1 WHERE id = ?`, then
`SELECT votes FROM issues WHERE id = ?` on the updated table, returning
the fetched count, or 0 when the SELECT matches no row. -/
def vote_issue (s : Store) (issue_id : String) : Int × Store :=
  let s' := s.map (fun i =>
    if i.id == issue_id then { i with votes := i.votes + 1 } else i)
  match s'.find? (fun i => i.id == issue_id) with
  | some i => (i.votes, s')
  | none => (0, s')

/-- The boolean comparison realised by `ORDER BY votes DESC, created_at
DESC`: higher votes first, ties broken by lexicographically larger
(more recent) ISO timestamp first. -/
def votesLe (a b : Issue) : Bool :=
  decide (b.votes < a.votes) ||
    (a.votes == b.votes && decide (b.created_at ≤ a.created_at))

/-- The boolean comparison realised by `ORDER BY created_at DESC`. -/
def recentLe (a b : Issue) : Bool :=
  decide (b.created_at ≤ a.created_at)

/-- The WHERE clause `get_issues` builds: the exact-match category
filter is appended only when the passed category is truthy in Python,
i.e. neither `None` nor the empty string. -/
def filterByCategory (s : Store) (category : Option String) : Store :=
  match category with
  | some c => if c = "" then s else s.filter (fun i => i.category == c)
  | none => s

/-- Model of `CitizenAppBackend.get_issues`: applies the optional category filter,
then sorts according to `sort_by` ("votes" and "recent" are the
recognised keys; anything else leaves the rows in table order). -/
def get_issues (s : Store) (category : Option String)
    (sort_by : String) : List Issue :=
  let filtered := filterByCategory s category
  if sort_by == "votes" then filtered.mergeSort votesLe
  else if sort_by == "recent" then filtered.mergeSort recentLe
  else filtered

/-- Result of `get_stats`: the three entries of the returned dict.
`by_category` is an association list over the fixed category set (the
Python dict is built by iterating that set). -/
structure Stats where
  total_issues : Nat
  average_votes : ℚ
  by_category : List (String × Nat)
deriving DecidableEq, Repr

/-- Rounding to two decimal places with ties to even, the behaviour of
Python `round(x, 2)`. -/
def round2 (q : ℚ) : ℚ :=
  let n : ℚ := 100 * q
  let f : ℤ := ⌊n⌋
  let frac : ℚ := n - f
  if frac < 1/2 then (f : ℚ) / 100
  else if 1/2 < frac then ((f : ℚ) + 1) / 100
  else if f % 2 = 0 then (f : ℚ) / 100 else ((f : ℚ) + 1) / 100

/-- Model of `CitizenAppBackend.get_stats`: COUNT of all rows, AVG(votes)
(SQL AVG is NULL on an empty table, which `or 0` turns into 0) rounded
to two decimals, and a per-category COUNT for each category of the
fixed set.  Exact rational arithmetic stands in for SQLite/Python
floats. -/
def get_stats (s : Store) : Stats :=
  { total_issues := s.length
    average_votes :=
      if s.isEmpty then 0
      else round2 (((s.map Issue.votes).sum : ℚ) / (s.length : ℚ))
    by_category :=
      CATEGORIES.map (fun c =>
        (c, (s.filter (fun i => i.category == c)).length)) }

/-- JSON values, the shape of what `json.dumps` serialises and
`json.loads` parses back.  Numbers are split by the Python type that
produced them (int vs float); rationals stand in for floats. -/
inductive Json where
  | str (s : String)
  | int (n : Int)
  | num (q : ℚ)
  | arr (elems : List Json)
  | obj (fields : List (String × Json))

/-- JSON encoding of one issue row, field for field. -/
def issueToJson (i : Issue) : Json :=
  .obj [("id", .str i.id), ("title", .str i.title),
        ("category", .str i.category), ("location", .str i.location),
        ("status", .str i.status), ("votes", .int i.votes),
        ("created_at", .str i.created_at)]

/-- JSON encoding of the stats dict. -/
def statsToJson (st : Stats) : Json :=
  .obj [("total_issues", .int st.total_issues),
        ("average_votes", .num st.average_votes),
        ("by_category",
         .obj (st.by_category.map (fun p => (p.1, Json.int p.2))))]

/-- Model of `CitizenAppBackend.export_json`: the serialised document, a
two-field object holding the stats snapshot and the issue list sorted
by recency.  We model the document at the JSON-value level; Python
`json.loads` recovers exactly this tree from the `json.dumps` text. -/
def export_json (s : Store) : Json :=
  .obj [("statistics", statsToJson (get_stats s)),
        ("issues", .arr ((get_issues s none "recent").map issueToJson))]

/-- Field lookup in a parsed JSON object. -/
def jsonField (fields : List (String × Json)) (k : String) : Option Json :=
  (fields.find? (fun p => p.1 == k)).map (fun p => p.2)

/-- Read a JSON value as a string. -/
def asStr : Json → Option String
  | .str s => some s
  | _ => none

/-- Read a JSON value as an integer. -/
def asInt : Json → Option Int
  | .int n => some n
  | _ => none

/-- Read a JSON value as a non-negative integer. -/
def asNat : Json → Option Nat
  | .int (.ofNat n) => some n
  | _ => none

/-- Read a JSON value as a number. -/
def asNum : Json → Option ℚ
  | .num q => some q
  | _ => none

/-- Read a JSON value as an array. -/
def asArr : Json → Option (List Json)
  | .arr xs => some xs
  | _ => none

/-- Read a JSON value as an object. -/
def asObj : Json → Option (List (String × Json))
  | .obj fs => some fs
  | _ => none

/-- Decode one issue record from parsed JSON. -/
def jsonToIssue (j : Json) : Option Issue := do
  let f ← asObj j
  let id ← jsonField f "id" >>= asStr
  let title ← jsonField f "title" >>= asStr
  let category ← jsonField f "category" >>= asStr
  let location ← jsonField f "location" >>= asStr
  let status ← jsonField f "status" >>= asStr
  let votes ← jsonField f "votes" >>= asInt
  let created_at ← jsonField f "created_at" >>= asStr
  pure { id := id, title := title, category := category,
         location := location, status := status, votes := votes,
         created_at := created_at }

/-- Decode the per-category counts of the stats dict. -/
def decodeCounts : List (String × Json) → Option (List (String × Nat))
  | [] => some []
  | (k, v) :: rest => do
      let n ← asNat v
      let tail ← decodeCounts rest
      pure ((k, n) :: tail)

/-- Decode the stats dict from parsed JSON. -/
def jsonToStats (j : Json) : Option Stats := do
  let f ← asObj j
  let total ← jsonField f "total_issues" >>= asNat
  let avg ← jsonField f "average_votes" >>= asNum
  let bc ← jsonField f "by_category" >>= asObj
  let counts ← decodeCounts bc
  pure { total_issues := total, average_votes := avg,
         by_category := counts }

/-- Decode a JSON array of issue records. -/
def decodeIssues : List Json → Option (List Issue)
  | [] => some []
  | j :: rest => do
      let i ← jsonToIssue j
      let tail ← decodeIssues rest
      pure (i :: tail)

/-- Parse the whole export document back into its two components. -/
def parseExport (j : Json) : Option (Stats × List Issue) := do
  let f ← asObj j
  let stats ← jsonField f "statistics" >>= jsonToStats
  let issues ← jsonField f "issues" >>= asArr
  let recs ← decodeIssues issues
  pure (stats, recs)

/-- One mutating backend call: either a `report_issue` or a
`vote_issue`, with arbitrary arguments.  The read-only operations
(`get_issues`, `get_stats`, `export_json`) take the store by value and
return no store, so they cannot change it. -/
inductive Step : Store → Store → Prop where
  | report (s : Store) (title category location ts iso : String) :
      Step s (report_issue s title category location ts iso).2
  | vote (s : Store) (issue_id : String) :
      Step s (vote_issue s issue_id).2

/-- Stores reachable from the freshly initialised (empty) table by any
sequence of backend calls. -/
inductive Reachable : Store → Prop where
  | init : Reachable []
  | step {s s' : Store} : Reachable s → Step s s' → Reachable s'

/-! ### Helper lemmas -/

/-- A concrete issue used to instantiate universally quantified theorems. -/
def sampleIssue : Issue :=
  { id := "issue_1", title := "Pothole on Main", category := "safety",
    location := "40.0,-75.0", status := "open", votes := 0,
    created_at := "2025-01-01T00:00:00" }

/-- In a table with pairwise distinct ids, looking a present id up after
the vote update finds exactly the incremented copy of the matching row. -/
theorem find?_vote_update (s : Store) (rec : Issue) (issue_id : String)
    (hnd : (s.map Issue.id).Nodup) (hmem : rec ∈ s) (hid : rec.id = issue_id) :
    (s.map (fun i =>
        if i.id == issue_id then { i with votes := i.votes + 1 } else i)).find?
      (fun i => i.id == issue_id) = some { rec with votes := rec.votes + 1 } := by
  induction s with
  | nil => cases hmem
  | cons a t ih =>
    rw [List.map_cons, List.nodup_cons] at hnd
    rcases List.mem_cons.mp hmem with h | h
    · subst h
      simp [List.find?, hid]
    · have hne : a.id ≠ issue_id := by
        intro he
        have hmem2 : rec.id ∈ List.map Issue.id t := List.mem_map_of_mem Issue.id h
        rw [hid, ← he] at hmem2
        exact hnd.1 hmem2
      have hbf : (a.id == issue_id) = false := beq_eq_false_iff_ne.mpr hne
      rw [List.map_cons, if_neg (by simp [hbf])]
      rw [List.find?_cons_of_neg _ (by simp [hbf])]
      exact ih hnd.2 h

/-- The store component of `vote_issue` is the pointwise vote update. -/
theorem vote_issue_snd (s : Store) (issue_id : String) :
    (vote_issue s issue_id).2 =
      s.map (fun i =>
        if i.id == issue_id then { i with votes := i.votes + 1 } else i) := by
  simp only [vote_issue]
  split <;> rfl

/-- C1: for every issue id present in the store (ids being unique, as the
primary key guarantees), `vote_issue` increments the matching record by
exactly 1, the value it returns equals the new stored value, and every
other record survives unchanged. -/
theorem vote_issue_post_increment (s : Store) (issue_id : String) (rec : Issue)
    (hnd : (s.map Issue.id).Nodup) (hmem : rec ∈ s) (hid : rec.id = issue_id) :
    (vote_issue s issue_id).1 = rec.votes + 1 ∧
    (vote_issue s issue_id).2.find? (fun i => i.id == issue_id) =
      some { rec with votes := rec.votes + 1 } ∧
    ∀ j ∈ s, j.id ≠ issue_id → j ∈ (vote_issue s issue_id).2 := by
  have hfind := find?_vote_update s rec issue_id hnd hmem hid
  refine ⟨?_, ?_, ?_⟩
  · simp only [vote_issue, hfind]
  · rw [vote_issue_snd]
    exact hfind
  · intro j hj hne
    rw [vote_issue_snd]
    exact List.mem_map.mpr ⟨j, hj, by simp [hne]⟩

/-- C1 witness: voting on the sample store returns its vote count plus 1. -/
theorem vote_issue_post_increment_witness :
    (vote_issue [sampleIssue] "issue_1").1 = sampleIssue.votes + 1 :=
  (vote_issue_post_increment [sampleIssue] "issue_1" sampleIssue
    (by decide) (by decide) (by decide)).1

/-- C2: for a category in the fixed set and a timestamp whose derived id
is not already taken (the only ingredient of uniqueness the code relies
on), `report_issue` succeeds, returns a previously-unseen id, and
appends exactly one new row with status "open", votes 0 and the current
timestamp as `created_at`. -/
theorem report_issue_valid_ok (s : Store) (title category location ts iso : String)
    (hcat : category ∈ CATEGORIES)
    (hfresh : ("issue_" ++ ts) ∉ s.map Issue.id) :
    (report_issue s title category location ts iso).1 =
      Except.ok ("issue_" ++ ts) ∧
    ("issue_" ++ ts) ∉ s.map Issue.id ∧
    (report_issue s title category location ts iso).2 =
      s ++ [{ id := "issue_" ++ ts, title := title, category := category,
              location := location, status := "open", votes := 0,
              created_at := iso }] := by
  have hany : s.any (fun i => i.id == ("issue_" ++ ts)) = false := by
    rw [List.any_eq_false]
    intro a ha
    have hne : a.id ≠ "issue_" ++ ts :=
      fun he => hfresh (he ▸ List.mem_map_of_mem Issue.id ha)
    simp [hne]
  refine ⟨?_, hfresh, ?_⟩ <;> simp [report_issue, hcat, hany]

/-- C2 witness: reporting a safety issue on the empty store returns the
timestamp-derived id and appends the single new row. -/
theorem report_issue_valid_ok_witness :
    (report_issue [] "Pothole on Main" "safety" "40.0,-75.0" "1"
        "2025-01-01T00:00:00").1 = Except.ok ("issue_" ++ "1") :=
  (report_issue_valid_ok [] "Pothole on Main" "safety" "40.0,-75.0" "1"
    "2025-01-01T00:00:00" (by decide) (by decide)).1

/-- C3: for a category outside the fixed set, `report_issue` raises the
validation error, whose message names every allowed category, and the
store is returned unchanged. -/
theorem report_issue_invalid_category (s : Store)
    (title category location ts iso : String)
    (hcat : category ∉ CATEGORIES) :
    report_issue s title category location ts iso =
      (Except.error (AppError.valueError invalidCategoryMsg), s) ∧
    ∀ c ∈ CATEGORIES, hasSeg c.data invalidCategoryMsg.data = true := by
  constructor
  · simp [report_issue, hcat]
  · decide

/-- C3 witness: a misspelled category is rejected with the validation
error and the empty store persists nothing. -/
theorem report_issue_invalid_category_witness :
    report_issue [] "Pothole on Main" "potholes" "40.0,-75.0" "1"
        "2025-01-01T00:00:00" =
      (Except.error (AppError.valueError invalidCategoryMsg), []) :=
  (report_issue_invalid_category [] "Pothole on Main" "potholes" "40.0,-75.0"
    "1" "2025-01-01T00:00:00" (by decide)).1

/-- C4: voting on an id absent from the store returns 0, raises nothing
(the result type is a plain count), and leaves the store identical. -/
theorem vote_issue_missing_id (s : Store) (issue_id : String)
    (h : issue_id ∉ s.map Issue.id) :
    vote_issue s issue_id = (0, s) := by
  have hupd : s.map (fun i =>
      if i.id == issue_id then { i with votes := i.votes + 1 } else i) = s := by
    conv_rhs => rw [← List.map_id s]
    refine List.map_congr_left ?_
    intro a ha
    have hne : a.id ≠ issue_id :=
      fun he => h (he ▸ List.mem_map_of_mem Issue.id ha)
    simp [hne]
  have hfind : s.find? (fun i => i.id == issue_id) = none := by
    rw [List.find?_eq_none]
    intro a ha
    have hne : a.id ≠ issue_id :=
      fun he => h (he ▸ List.mem_map_of_mem Issue.id ha)
    simp [hne]
  simp only [vote_issue]
  rw [hupd, hfind]

/-- C4 witness: voting on a never-created id against the sample store is
a no-op returning 0. -/
theorem vote_issue_missing_id_witness :
    vote_issue [sampleIssue] "issue_404" = (0, [sampleIssue]) :=
  vote_issue_missing_id [sampleIssue] "issue_404" (by decide)

/-- Transitivity of the votes-then-recency comparison. -/
theorem votesLe_trans (a b c : Issue) (h1 : votesLe a b) (h2 : votesLe b c) :
    votesLe a c := by
  simp only [votesLe, Bool.or_eq_true, Bool.and_eq_true, decide_eq_true_eq,
    beq_iff_eq] at h1 h2 ⊢
  rcases h1 with h1 | ⟨h1e, h1c⟩ <;> rcases h2 with h2 | ⟨h2e, h2c⟩
  · exact Or.inl (lt_trans h2 h1)
  · exact Or.inl (h2e ▸ h1)
  · exact Or.inl (h1e ▸ h2)
  · exact Or.inr ⟨h1e.trans h2e, le_trans h2c h1c⟩

/-- Totality of the votes-then-recency comparison. -/
theorem votesLe_total (a b : Issue) : votesLe a b || votesLe b a := by
  simp only [votesLe, Bool.or_eq_true, Bool.and_eq_true, decide_eq_true_eq,
    beq_iff_eq]
  rcases lt_trichotomy a.votes b.votes with h | h | h
  · exact Or.inr (Or.inl h)
  · rcases le_total a.created_at b.created_at with hc | hc
    · exact Or.inr (Or.inr ⟨h.symm, hc⟩)
    · exact Or.inl (Or.inr ⟨h, hc⟩)
  · exact Or.inl (Or.inl h)

/-- C5: the sequence returned under the "votes" sort key is pairwise
non-increasing in votes, and non-increasing in creation time among
entries with equal votes. -/
theorem get_issues_votes_sorted (s : Store) (category : Option String) :
    List.Pairwise (fun a b : Issue =>
        b.votes ≤ a.votes ∧ (a.votes = b.votes → b.created_at ≤ a.created_at))
      (get_issues s category "votes") := by
  have hs : get_issues s category "votes" =
      (filterByCategory s category).mergeSort votesLe := by
    simp [get_issues]
  rw [hs]
  have hp := List.sorted_mergeSort votesLe_trans votesLe_total
    (filterByCategory s category)
  refine hp.imp ?_
  intro a b hab
  simp only [votesLe, Bool.or_eq_true, Bool.and_eq_true, decide_eq_true_eq,
    beq_iff_eq] at hab
  rcases hab with h | ⟨he, hc⟩
  · exact ⟨le_of_lt h, fun hev => absurd (hev ▸ h) (lt_irrefl _)⟩
  · exact ⟨le_of_eq he.symm, fun _ => hc⟩

/-- The rows `get_issues` returns are, whatever the sort key, a
permutation of the rows the WHERE clause selects. -/
theorem get_issues_perm (s : Store) (category : Option String) (sb : String) :
    List.Perm (get_issues s category sb) (filterByCategory s category) := by
  unfold get_issues
  by_cases h1 : (sb == "votes") = true
  · rw [if_pos h1]
    exact List.mergeSort_perm _ _
  · rw [if_neg (by simp [h1])]
    by_cases h2 : (sb == "recent") = true
    · rw [if_pos h2]
      exact List.mergeSort_perm _ _
    · rw [if_neg (by simp [h2])]

/-- C6 counterexample: with the empty string as the provided category
argument, the code skips the WHERE clause and returns the sample row,
although no row has the empty string as its category, so an exact-match
filter would have returned the empty list. -/
theorem get_issues_empty_category_cex :
    get_issues [sampleIssue] (some "") "votes" = [sampleIssue] ∧
    [sampleIssue].filter (fun i => i.category == "") = [] := by
  constructor
  · simp [get_issues, filterByCategory]
  · decide

/-- C6 amended: for every provided non-empty category argument, the
returned rows are exactly the rows whose category matches character for
character (as a permutation, the sort key choosing the order), every
returned row matches, and the result is empty when nothing matches. -/
theorem get_issues_category_exact (s : Store) (c : String) (sb : String)
    (hc : c ≠ "") :
    List.Perm (get_issues s (some c) sb)
      (s.filter (fun i => i.category == c)) ∧
    (∀ i ∈ get_issues s (some c) sb, i.category = c) ∧
    ((∀ i ∈ s, i.category ≠ c) → get_issues s (some c) sb = []) := by
  have hfb : filterByCategory s (some c) =
      s.filter (fun i => i.category == c) := by
    simp [filterByCategory, hc]
  have hperm := get_issues_perm s (some c) sb
  rw [hfb] at hperm
  refine ⟨hperm, ?_, ?_⟩
  · intro i hi
    have hmem : i ∈ s.filter (fun i => i.category == c) :=
      hperm.mem_iff.mp hi
    exact beq_iff_eq.mp (List.mem_filter.mp hmem).2
  · intro hnone
    have hf : s.filter (fun i => i.category == c) = [] :=
      List.filter_eq_nil_iff.mpr (fun a ha => by simp [hnone a ha])
    rw [hf] at hperm
    exact List.Perm.eq_nil hperm

/-- C6 amended witness: filtering the sample store by the category
"transit" returns a permutation of the exact-match rows. -/
theorem get_issues_category_exact_witness :
    List.Perm (get_issues [sampleIssue] (some "transit") "votes")
      ([sampleIssue].filter (fun i => i.category == "transit")) :=
  (get_issues_category_exact [sampleIssue] "transit" "votes" (by decide)).1

/-- C10: a falsy category argument (the empty string, or no category at
all) applies no filter: the result is a permutation of the full store,
and in particular every stored issue is returned. -/
theorem get_issues_falsy_category_no_filter (s : Store) (sb : String) :
    List.Perm (get_issues s (some "") sb) s ∧
    List.Perm (get_issues s none sb) s ∧
    ∀ i ∈ s, i ∈ get_issues s (some "") sb := by
  have h1 := get_issues_perm s (some "") sb
  have h2 := get_issues_perm s none sb
  simp only [filterByCategory, if_pos rfl] at h1 h2
  exact ⟨h1, h2, fun i hi => h1.mem_iff.mpr hi⟩

/-- Looking a key up in an association list built by mapping a function
over a key list finds the function value, whenever the key occurs. -/
theorem lookup_map_key {β : Type} (l : List String) (g : String → β)
    (c : String) (hc : c ∈ l) :
    (l.map (fun a => (a, g a))).lookup c = some (g c) := by
  induction l with
  | nil => cases hc
  | cons a t ih =>
    by_cases he : c = a
    · subst he
      simp [List.lookup]
    · have hb : (c == a) = false := beq_eq_false_iff_ne.mpr he
      rw [List.map_cons]
      simp only [List.lookup, hb]
      exact ih (List.mem_of_ne_of_mem he hc)

/-- C7: `get_stats` returns the total row count, the rounded average
vote count (0 on the empty store, with no error or null involved), and
an association list in which every category of the fixed set appears
with its exact row count, zero-count categories included. -/
theorem get_stats_spec (s : Store) :
    (get_stats s).total_issues = s.length ∧
    (s = [] → (get_stats s).average_votes = 0) ∧
    (s ≠ [] → (get_stats s).average_votes =
      round2 (((s.map Issue.votes).sum : ℚ) / (s.length : ℚ))) ∧
    ∀ c ∈ CATEGORIES,
      (get_stats s).by_category.lookup c =
        some ((s.filter (fun i => i.category == c)).length) := by
  refine ⟨rfl, ?_, ?_, ?_⟩
  · intro h
    subst h
    rfl
  · intro h
    have hne : s.isEmpty = false := by
      cases s with
      | nil => exact absurd rfl h
      | cons a t => rfl
    simp [get_stats, hne]
  · intro c hc
    exact lookup_map_key CATEGORIES
      (fun c => (s.filter (fun i => i.category == c)).length) c hc

/-- C7 witness: on the empty store the statistics are total 0, average
0, and every category mapped to a zero count. -/
theorem get_stats_spec_witness : (get_stats []).average_votes = 0 :=
  (get_stats_spec []).2.1 rfl

/-- Every row surviving a mutating step came from a row with the same
id and a vote count that did not decrease, or is a fresh row. -/
theorem step_votes_ge {s s' : Store} (h : Step s s')
    (hs : ∀ i ∈ s, 0 ≤ i.votes) : ∀ i' ∈ s', 0 ≤ i'.votes := by
  cases h with
  | report title category location ts iso =>
    intro i' hi'
    simp only [report_issue] at hi'
    split at hi'
    · split at hi'
      · exact hs i' hi'
      · rcases List.mem_append.mp hi' with hmem | hmem
        · exact hs i' hmem
        · rcases List.mem_singleton.mp hmem with rfl
          norm_num
    · exact hs i' hi'
  | vote issue_id =>
    intro i' hi'
    rw [vote_issue_snd] at hi'
    rcases List.mem_map.mp hi' with ⟨i, hi, hupd⟩
    subst hupd
    by_cases hb : (i.id == issue_id) = true
    · rw [if_pos hb]
      have := hs i hi
      show 0 ≤ i.votes + 1
      omega
    · rw [if_neg hb]
      exact hs i hi

/-- No mutating step loses a row or decreases its votes. -/
theorem step_old_rows {s s' : Store} (h : Step s s') :
    ∀ i ∈ s, ∃ i' ∈ s', i'.id = i.id ∧ i.votes ≤ i'.votes := by
  cases h with
  | report title category location ts iso =>
    intro i hi
    refine ⟨i, ?_, rfl, le_refl _⟩
    simp only [report_issue]
    split
    · split
      · exact hi
      · exact List.mem_append_left _ hi
    · exact hi
  | vote issue_id =>
    intro i hi
    rw [vote_issue_snd]
    refine ⟨if i.id == issue_id then { i with votes := i.votes + 1 } else i,
      List.mem_map_of_mem _ hi, ?_, ?_⟩
    · by_cases hb : (i.id == issue_id) = true
      · rw [if_pos hb]
      · rw [if_neg hb]
    · by_cases hb : (i.id == issue_id) = true
      · rw [if_pos hb]
        show i.votes ≤ i.votes + 1
        omega
      · rw [if_neg hb]

/-- C9: in every store reachable by any sequence of backend calls all
vote counts are non-negative, and no single mutating call ever
decreases or resets the vote count carried by an id. -/
theorem votes_invariant :
    (∀ s, Reachable s → ∀ i ∈ s, 0 ≤ i.votes) ∧
    (∀ s s', Step s s' → ∀ i ∈ s,
      ∃ i' ∈ s', i'.id = i.id ∧ i.votes ≤ i'.votes) := by
  constructor
  · intro s hreach
    induction hreach with
    | init => intro i hi; cases hi
    | step hr hstep ih => exact step_votes_ge hstep ih
  · intro s s' hstep
    exact step_old_rows hstep

/-- C9 witness: the store reached by one successful report has a
non-negative vote count on its only row. -/
theorem votes_invariant_witness : 0 ≤ sampleIssue.votes := by
  have hstep := Step.report [] "Pothole on Main" "safety" "40.0,-75.0" "1"
    "2025-01-01T00:00:00"
  have h2 : (report_issue [] "Pothole on Main" "safety" "40.0,-75.0" "1"
      "2025-01-01T00:00:00").2 = [sampleIssue] := by decide
  rw [h2] at hstep
  exact votes_invariant.1 [sampleIssue] (Reachable.step Reachable.init hstep)
    sampleIssue (List.mem_singleton.mpr rfl)

/-- Decoding inverts the per-issue JSON encoding. -/
theorem jsonToIssue_issueToJson (i : Issue) :
    jsonToIssue (issueToJson i) = some i := rfl

/-- Decoding inverts the encoding of a list of issues. -/
theorem decodeIssues_map (l : List Issue) :
    decodeIssues (l.map issueToJson) = some l := by
  induction l with
  | nil => rfl
  | cons a t ih =>
    rw [List.map_cons]
    simp [decodeIssues, jsonToIssue_issueToJson, ih]

/-- Decoding inverts the encoding of the per-category counts. -/
theorem decodeCounts_map (l : List (String × Nat)) :
    decodeCounts (l.map (fun p => (p.1, Json.int p.2))) = some l := by
  induction l with
  | nil => rfl
  | cons a t ih =>
    rw [List.map_cons]
    simp only [decodeCounts]
    rw [show asNat (Json.int (a.2 : Int)) = some a.2 from rfl, ih]
    rfl

/-- Decoding a JSON integer built from a natural number. -/
theorem asNat_intCast (n : Nat) : asNat (Json.int (n : Int)) = some n := rfl

/-- Decoding inverts the stats encoding. -/
theorem jsonToStats_statsToJson (st : Stats) :
    jsonToStats (statsToJson st) = some st := by
  simp [jsonToStats, statsToJson, jsonField, asObj, asNum, asNat_intCast,
    decodeCounts_map, List.find?]

/-- C8: parsing the export document yields exactly the statistics of an
independent `get_stats` call and the issue list of an independent
`get_issues(sort_by = recent)` call on the same store. -/
theorem export_json_roundtrip (s : Store) :
    parseExport (export_json s) =
      some (get_stats s, get_issues s none "recent") := by
  simp [parseExport, export_json, jsonField, asObj, asArr,
    jsonToStats_statsToJson, decodeIssues_map, List.find?]
